import Mathlib

/- Shallow embedding of the AI-Driven-News-Reframer task pipeline
   (src/rewriter: session_manager.py, util.py, task.py, gemini/rewriting_client.py).

   Modeling conventions:
   * Per-user filesystem state is explicit: the task ledger file `tasks.json` is a
     `LedgerFile` (absent, unparseable, or a parsed list of task records); the user
     folder is a list of named files.  A JSON read of an absent or corrupt file is
     modeled exactly as in the source (`[]` / failure), and a successful
     `json.dump` write is modeled as replacing the parsed contents.  I/O failure
     of a write is modeled by an explicit `writeOk` flag where the source catches
     write exceptions; byte-level serialization is outside the model.
   * Python dicts for task records and article metadata become structures with
     string fields; `uuid4()` values and timestamps are passed in as parameters.
   * Paths are folder-relative file names (`os.path.join(user_folder, f)` is
     dropped since every operation stays inside one user folder).
   * The external Gemini service and its file-upload endpoint are parameters:
     a function from composed request parts to an outcome.  Theorems that say
     "no call reaches the service" quantify over that parameter.
-/

/-- Python truthiness of an optional string: `None` and `""` are falsy
(`if preset_id:` in rewriting_client.py, `if instruction:` ibid.). -/
def pyTruthy (o : Option String) : Bool :=
  match o with
  | none => false
  | some s => s != ""

/-- Article metadata dict built by util.py `save_text_article` / `save_pdf_article`
(keys: id, type, file_path, filename, source, preview).  `type` is a Lean keyword,
so the field is named `articleType`. -/
structure ArticleData where
  id : String
  articleType : String
  file_path : String
  filename : String
  source : String
  preview : String
deriving DecidableEq

/-- One entry of the per-user `tasks.json` ledger, as written by
`SessionManager.save_task` (session_manager.py lines 171-180). -/
structure TaskRecord where
  task_id : String
  title : String
  articles : List ArticleData
  instruction : String
  status : String
  result : String
  created_at : String
  user_folder : String
deriving DecidableEq

/-- State of the `tasks.json` ledger file: missing, present but unparseable JSON,
or a parsed ordered list of task records. -/
inductive LedgerFile where
  | absent : LedgerFile
  | corrupt : LedgerFile
  | parsed : List TaskRecord → LedgerFile
deriving DecidableEq

/-- The in-place mutation loop of `SessionManager.update_task_status`
(session_manager.py lines 237-242): linear scan, update the first record whose
`task_id` matches (set `status`; set `result` only when a result was provided),
then `break`. -/
def updateFirstMatch (tasks : List TaskRecord) (task_id : String) (status : String)
    (result : Option String) : List TaskRecord :=
  match tasks with
  | [] => []
  | t :: rest =>
    if t.task_id == task_id then
      { t with status := status, result := result.getD t.result } :: rest
    else
      t :: updateFirstMatch rest task_id status result

/-- `SessionManager.update_task_status(task_id, user_folder, status, result=None)`
(session_manager.py lines 225-251): returns `False` when the ledger file does not
exist; `False` when reading/parsing raises (file left unread); otherwise runs the
scan-and-mutate loop, rewrites the whole file, and returns `True`. -/
def update_task_status (file : LedgerFile) (task_id : String) (status : String)
    (result : Option String) : Bool × LedgerFile :=
  match file with
  | .absent => (false, .absent)
  | .corrupt => (false, .corrupt)
  | .parsed tasks => (true, .parsed (updateFirstMatch tasks task_id status result))

/-- `SessionManager.get_task_by_id` (session_manager.py lines 206-223): `None` when
the file is absent or unparseable, else the first record with a matching id. -/
def get_task_by_id (file : LedgerFile) (task_id : String) : Option TaskRecord :=
  match file with
  | .parsed tasks => tasks.find? (fun t => t.task_id == task_id)
  | _ => none

/-- The session task draft (`session["current_task"]`): title, ordered article
metadata, instruction text. -/
structure TaskDraft where
  title : String
  articles : List ArticleData
  instruction : String
deriving DecidableEq

/-- `SessionManager.is_task_ready` (session_manager.py lines 143-147):
`bool(title and articles)`, i.e. non-empty title and at least one article. -/
def is_task_ready (d : TaskDraft) : Bool :=
  (d.title != "") && !d.articles.isEmpty

/-- `SessionManager.save_task(user_folder)` (session_manager.py lines 160-204):
returns `None` without touching the ledger when the draft is not ready; otherwise
loads the existing ledger (absent or corrupt file read as `[]`), appends a fresh
`pending` record, and writes the file back, returning the new task id on write
success and `None` (file untouched in this model; the source catches the write
exception) on write failure.  The generated uuid and timestamp placeholder are
the `new_task_id` / `created_at` parameters. -/
def save_task (d : TaskDraft) (file : LedgerFile) (writeOk : Bool)
    (new_task_id : String) (created_at : String) (user_folder : String) :
    Option String × LedgerFile :=
  if !(is_task_ready d) then (none, file)
  else
    let tasks : List TaskRecord :=
      match file with
      | .parsed ts => ts
      | _ => []
    let record : TaskRecord :=
      { task_id := new_task_id, title := d.title, articles := d.articles,
        instruction := d.instruction, status := "pending", result := "",
        created_at := created_at, user_folder := user_folder }
    if writeOk then (some new_task_id, .parsed (tasks ++ [record]))
    else (none, file)

/-- `SessionManager.add_article` (session_manager.py lines 70-74): append to the
ordered article list of the draft. -/
def add_article (articles : List ArticleData) (article_data : ArticleData) :
    List ArticleData :=
  articles ++ [article_data]

/-- `SessionManager.remove_article(article_id)` (session_manager.py lines 82-104)
on an initialized draft: returns the first article whose id matches (or `None`),
and keeps every article whose id differs (a list comprehension, so every record
carrying the id is dropped). -/
def remove_article (articles : List ArticleData) (article_id : String) :
    Option ArticleData × List ArticleData :=
  (articles.find? (fun a => a.id == article_id),
   articles.filter (fun a => a.id != article_id))

/-- Flask flash-message category used by the task routes. -/
inductive FlashKind where
  | success : FlashKind
  | error : FlashKind
  | info : FlashKind
deriving DecidableEq

/-- Outcome of `RewritingClient().process_task(...)` as observed by the route:
the returned text, or the message of the raised exception. -/
inductive ClientOutcome where
  | ok : String → ClientOutcome
  | failure : String → ClientOutcome
deriving DecidableEq

/-- The `/task/process/<task_id>` route (task.py lines 251-294).  The client
call's outcome is a parameter (it is produced by external code between the two
ledger writes).  Returns the resulting ledger file and the flash message.
Not-found and already-`processing` tasks are rejected before any ledger write;
otherwise the task is marked `processing`, then `completed` with the result
text on success, or `failed` with the exception text on failure. -/
def route_process_task (file : LedgerFile) (task_id : String)
    (client : ClientOutcome) : LedgerFile × FlashKind × String :=
  match get_task_by_id file task_id with
  | none => (file, .error, "Task not found.")
  | some task =>
    if task.status == "processing" then
      (file, .info, "Task is already being processed.")
    else
      let file1 := (update_task_status file task_id ("processing") none).2
      match client with
      | .ok result =>
        ((update_task_status file1 task_id ("completed") (some result)).2,
         .success, "Task processed successfully!")
      | .failure e =>
        ((update_task_status file1 task_id ("failed") (some e)).2,
         .error, "Error processing task: " ++ e)

/-- The `create_task` branch of the `/task/new` route (task.py lines 59-78),
after any posted title has been stored: reads the draft (`get_task_data`
defaults to an empty draft when the session has none), and when it is ready
calls `save_task`; the session draft is cleared (`clear_current_task`) only
when `save_task` returned a task id.  Returns the resulting draft state, the
resulting ledger file, and the returned task id (if any). -/
def create_task_action (draft : Option TaskDraft) (file : LedgerFile)
    (writeOk : Bool) (new_task_id : String) (created_at : String)
    (user_folder : String) : Option TaskDraft × LedgerFile × Option String :=
  let d := draft.getD { title := "", articles := [], instruction := "" }
  if is_task_ready d then
    match save_task d file writeOk new_task_id created_at user_folder with
    | (some tid, file1) => (none, file1, some tid)
    | (none, file1) => (draft, file1, none)
  else (draft, file, none)

/-- Content of a file in a user folder: decoded text, or raw bytes (each a
value `< 256`; byte values are plain naturals in this model). -/
inductive FileContent where
  | text : String → FileContent
  | binary : List Nat → FileContent
deriving DecidableEq

/-- One file of a user folder (names are folder-relative). -/
structure FileEntry where
  name : String
  content : FileContent
deriving DecidableEq

/-- Look a file up by name (file names are unique in a real directory; the
first entry wins, as `open` would). -/
def fsLookup (folder : List FileEntry) (name : String) : Option FileContent :=
  (folder.find? (fun e => e.name == name)).map (·.content)

/-- `os.path.exists` within the user folder. -/
def fsExists (folder : List FileEntry) (name : String) : Bool :=
  (fsLookup folder name).isSome

/-- `open(path, "w")` + write: overwrite the file if present, else create it. -/
def fsWrite (folder : List FileEntry) (name : String) (content : FileContent) :
    List FileEntry :=
  if fsExists folder name then
    folder.map (fun e => if e.name == name then { name := name, content := content } else e)
  else folder ++ [{ name := name, content := content }]

/-- Python `s.startswith(pre)`. -/
def pyStartsWith (s : String) (pre : String) : Bool :=
  decide (s.toList.take pre.toList.length = pre.toList)

/-- Python `s.endswith(suf)`. -/
def pyEndsWith (s : String) (suf : String) : Bool :=
  suf.toList.isSuffixOf s.toList

/-- Whether `needle` occurs as a contiguous sublist of `s` (Python `in` on
strings). -/
def listContainsSub (needle : List Char) : List Char → Bool
  | [] => needle.isEmpty
  | c :: rest => (c :: rest).take needle.length == needle || listContainsSub needle rest

/-- Python `needle in s.lower()` for an already-lowercase needle.
`Char.toLower` models `str.lower` (exact on ASCII, which is all the source
compares). -/
def containsLower (needle : String) (s : String) : Bool :=
  listContainsSub needle.toList (s.toList.map Char.toLower)

/-- Python `s.lower().endswith(".pdf")` (rewriting_client.py). -/
def endsWithPdfLower (s : String) : Bool :=
  (".pdf").toList.isSuffixOf (s.toList.map Char.toLower)

/-- The whitespace stripped by Python `str.strip()` (ASCII portion). -/
def isPyWhitespaceChar (c : Char) : Bool :=
  c == ' ' || c == '\t' || c == '\n' || c == '\r' || c == '\x0b' || c == '\x0c'

/-- Python `str.strip()` on a character list. -/
def pyStripList (cs : List Char) : List Char :=
  ((cs.dropWhile isPyWhitespaceChar).reverse.dropWhile isPyWhitespaceChar).reverse

/-- Python `str.strip()`. -/
def pyStrip (s : String) : String :=
  String.mk (pyStripList s.toList)

/-- The `%PDF` magic bytes checked by `load_articles`. -/
def pdfMagic : List Nat := [37, 80, 68, 70]

/-- `f.read(4)` in binary mode: the first `n` bytes of a file (a text file's
bytes are its UTF-8 encoding). -/
def readFirstBytes (c : FileContent) (n : Nat) : List Nat :=
  match c with
  | .binary bs => bs.take n
  | .text s => (s.toUTF8.toList.map (fun b => b.toNat)).take n

/-- `RewritingClient.load_articles` (rewriting_client.py lines 28-61): for each
path, the PDF branch (path ends in `.pdf` after lowering) keeps the PATH when
the file exists and starts with `%PDF`, else warns and skips; the text branch
keeps the STRIPPED CONTENT when the file exists, decodes (a raw-bytes entry
models a decode failure, warned and skipped) and is non-empty after stripping;
a missing file is warned and skipped. -/
def load_articles (folder : List FileEntry) (article_file_paths : List String) :
    List String :=
  match article_file_paths with
  | [] => []
  | file_path :: rest =>
    if endsWithPdfLower file_path then
      match fsLookup folder file_path with
      | some c =>
        if readFirstBytes c 4 = pdfMagic then file_path :: load_articles folder rest
        else load_articles folder rest
      | none => load_articles folder rest
    else
      match fsLookup folder file_path with
      | some (.text s) =>
        if pyStrip s != "" then pyStrip s :: load_articles folder rest
        else load_articles folder rest
      | some (.binary _) => load_articles folder rest
      | none => load_articles folder rest

/-- `RewritingClient.load_instruction` (rewriting_client.py lines 63-86).  The
bundled read-only preset files `prompts/preset_<id>.txt` are an association
list from preset id to content; the persisted `instruction.txt` content is an
optional string (`none` = absent or unreadable).  With a truthy preset id whose
preset file exists, returns the stripped preset content; when the preset file
is missing the code only WARNS and falls through to the regular instruction
file; an absent instruction file yields `""`. -/
def load_instruction (instruction_file : Option String)
    (presets : List (String × String)) (preset_id : Option String) : String :=
  let fallback :=
    match instruction_file with
    | some c => pyStrip c
    | none => ""
  if pyTruthy preset_id then
    match presets.find? (fun p => p.1 == preset_id.getD ("")) with
    | some p => pyStrip p.2
    | none => fallback
  else fallback

/-- One part of the composed generation request: plain text, or an uploaded
binary document (identified by its path). -/
inductive ReqPart where
  | text : String → ReqPart
  | upload : String → ReqPart
deriving DecidableEq

/-- The first article loop of `RewritingClient._build_content_parts`
(rewriting_client.py lines 100-103): append every article string that does not
end in `.pdf` (lowercased) as a text part. -/
def textArticleParts (articles : List String) : List ReqPart :=
  match articles with
  | [] => []
  | a :: rest =>
    if endsWithPdfLower a then textArticleParts rest
    else .text a :: textArticleParts rest

/-- The second article loop of `RewritingClient._build_content_parts`
(rewriting_client.py lines 105-116): upload every article string that ends in
`.pdf` (lowercased) and names an existing file (the upload itself is modeled as
always succeeding). -/
def pdfArticleParts (folder : List FileEntry) (articles : List String) :
    List ReqPart :=
  match articles with
  | [] => []
  | a :: rest =>
    if endsWithPdfLower a && fsExists folder a then
      .upload a :: pdfArticleParts folder rest
    else pdfArticleParts folder rest

/-- `RewritingClient._build_content_parts` (rewriting_client.py lines 88-118):
the prompt template, then the instruction if non-empty, then the text-article
loop, then the PDF-upload loop. -/
def build_content_parts (folder : List FileEntry) (prompt_template : String)
    (articles : List String) (instruction : String) : List ReqPart :=
  ([ReqPart.text prompt_template] ++
    (if instruction != "" then [ReqPart.text instruction] else [])) ++
  textArticleParts articles ++ pdfArticleParts folder articles

/-- Result of `client.models.generate_content`: a service `APIError` with its
message, or a response whose `.text` may be missing. -/
inductive GeminiResult where
  | apiError : String → GeminiResult
  | response : Option String → GeminiResult

/-- The `except APIError` wrapper of `RewritingClient.process_task`
(rewriting_client.py lines 171-175). -/
def wrapApiError (msg : String) : String :=
  let base := "Gemini API error: " ++ msg
  if containsLower ("pdf") msg || containsLower ("mime") msg then
    base ++ "\nThis might be related to PDF processing. Please ensure the PDF file is valid and not corrupted."
  else base

/-- The generic `except Exception` wrapper of `RewritingClient.process_task`
(rewriting_client.py lines 176-180). -/
def wrapGenericError (msg : String) : String :=
  let base := "Error processing task: " ++ msg
  if containsLower ("pdf") msg then
    base ++ "\nPDF processing error. Please check if the PDF file is valid and accessible."
  else base

/-- The `input*.{txt,pdf}` directory scan of `RewritingClient.process_task`
(rewriting_client.py lines 139-145), in listing order. -/
def articleFilesOf (folder : List FileEntry) : List String :=
  (folder.filter (fun e =>
    pyStartsWith e.name ("input") &&
      (pyEndsWith e.name (".txt") || pyEndsWith e.name (".pdf")))).map (·.name)

/-- `RewritingClient.process_task(user_folder, prompt_file_path, preset_id)`
(rewriting_client.py lines 120-180), with the prompt template already loaded,
the preset catalog and the external generation service as parameters: scan the
folder for article files, load them, raise `No articles found to process`
(wrapped by the outer handler) when none is valid, else resolve the
instruction, compose the parts and invoke the service; an `APIError` or a
missing/empty response text is wrapped into an error message. -/
def clientProcessTask (folder : List FileEntry) (prompt_template : String)
    (preset_id : Option String) (presets : List (String × String))
    (gemini : List ReqPart → GeminiResult) : ClientOutcome :=
  let articles := load_articles folder (articleFilesOf folder)
  if articles.isEmpty then
    .failure (wrapGenericError ("No articles found to process"))
  else
    let instruction := load_instruction
      ((fsLookup folder ("instruction.txt")).bind fun c =>
        match c with
        | .text s => some s
        | .binary _ => none)
      presets preset_id
    let parts := build_content_parts folder prompt_template articles instruction
    match gemini parts with
    | .apiError e => .failure (wrapApiError e)
    | .response t =>
      if pyTruthy t then .ok (t.getD (""))
      else .failure (wrapGenericError ("No response generated from Gemini AI"))

/-- util.py `save_text_article(article_content, user_folder, input_number)`
(lines 51-74): write the content verbatim to `input<n>.txt` and build the
article metadata; on a write failure (exception text `errText`) return the
error message and leave the folder as it was. -/
def save_text_article (article_content : String) (folder : List FileEntry)
    (input_number : Int) (writeOk : Bool) (new_id : String) (errText : String) :
    Option ArticleData × Option String × List FileEntry :=
  let filename := "input" ++ toString input_number ++ ".txt"
  if writeOk then
    (some { id := new_id, articleType := "text", file_path := filename,
            filename := filename, source := "Text Input",
            preview :=
              if article_content.length > 50 then article_content.take 50 ++ "..."
              else article_content },
     none,
     fsWrite folder filename (.text article_content))
  else (none, some ("Error saving text file: " ++ errText), folder)

-- util.py `get_next_input_number`, modeled on filenames as character lists so
-- that Python's `replace` / `split` / `int` pipeline is fully explicit.

/-- The characters of the literal `input`. -/
def inputChars : List Char := ['i', 'n', 'p', 'u', 't']

/-- The characters of the literal `.txt`. -/
def txtExtChars : List Char := ['.', 't', 'x', 't']

/-- The characters of the literal `.pdf`. -/
def pdfExtChars : List Char := ['.', 'p', 'd', 'f']

/-- Python `filename.replace("input", "")`: delete every occurrence of
`input`, scanning left to right, non-overlapping. -/
def removeInput : List Char → List Char
  | [] => []
  | 'i' :: 'n' :: 'p' :: 'u' :: 't' :: rest => removeInput rest
  | c :: rest => c :: removeInput rest

/-- Python `s.split(".")[0]`: the text before the first dot. -/
def beforeFirstDot : List Char → List Char
  | [] => []
  | c :: rest => if c == '.' then [] else c :: beforeFirstDot rest

/-- No two adjacent underscores (part of Python int-literal validity). -/
def noDoubleUnderscore : List Char → Bool
  | [] => true
  | [_] => true
  | c1 :: c2 :: rest => !(c1 == '_' && c2 == '_') && noDoubleUnderscore (c2 :: rest)

/-- A valid unsigned Python int literal body: non-empty decimal digits with
optional single underscores strictly between digits. -/
def validDigitRun (s : List Char) : Bool :=
  !s.isEmpty && s.head? != some '_' && s.getLast? != some '_' &&
    s.all (fun c => c.isDigit || c == '_') && noDoubleUnderscore s

/-- Base-10 value of a digit list. -/
def digitsVal (s : List Char) : Int :=
  s.foldl (fun n c => 10 * n + ((c.toNat : Int) - 48)) 0

/-- Python `int(s)` (base 10): strip surrounding whitespace, allow one leading
sign, then a valid digit run (underscores permitted between digits); anything
else raises `ValueError`, modeled as `none`. -/
def pyInt (s : List Char) : Option Int :=
  match pyStripList s with
  | '-' :: rest =>
    if validDigitRun rest then some (-(digitsVal (rest.filter (fun c => c != '_'))))
    else none
  | '+' :: rest =>
    if validDigitRun rest then some (digitsVal (rest.filter (fun c => c != '_')))
    else none
  | t =>
    if validDigitRun t then some (digitsVal (t.filter (fun c => c != '_')))
    else none

/-- The candidate filter of util.py `get_next_input_number`:
`f.startswith("input") and (f.endswith(".pdf") or f.endswith(".txt"))`. -/
def isInputCandidate (f : List Char) : Bool :=
  f.take 5 == inputChars && (pdfExtChars.isSuffixOf f || txtExtChars.isSuffixOf f)

/-- The per-filename parse of `get_next_input_number`:
`int(filename.replace("input", "").split(".")[0])`, `ValueError` ignored. -/
def parseInputNumber (f : List Char) : Option Int :=
  pyInt (beforeFirstDot (removeInput f))

/-- util.py `get_next_input_number(user_folder)` (lines 28-48) applied to the
directory listing: 1 when no filename passes the candidate filter; otherwise
`max(numbers) + 1` over the candidates whose remainder parses as a Python int,
and 1 when none parses. -/
def get_next_input_number (files : List (List Char)) : Int :=
  let existing_files := files.filter isInputCandidate
  if existing_files.isEmpty then 1
  else
    let numbers := existing_files.filterMap parseInputNumber
    match numbers with
    | [] => 1
    | n :: rest => rest.foldl max n + 1

/-- Follows the spec's words: a filename matches the pattern
`input<digits>.{txt|pdf}` exactly when it is `input`, then a non-empty run of
decimal digits, then `.txt` or `.pdf`; it then contributes that number. -/
def matchesInputPattern : List Char → Option Int
  | 'i' :: 'n' :: 'p' :: 'u' :: 't' :: rest =>
    if !(rest.takeWhile Char.isDigit).isEmpty &&
        (rest.dropWhile Char.isDigit == txtExtChars ||
         rest.dropWhile Char.isDigit == pdfExtChars) then
      some (digitsVal (rest.takeWhile Char.isDigit))
    else none
  | _ => none

/-- Follows the spec's words: `next_sequence_number(root)` returns 1 when no
filename matches `input<digits>.{txt|pdf}`, else the maximum matched number
plus 1 (malformed names ignored). -/
def next_sequence_number (files : List (List Char)) : Int :=
  match files.filterMap matchesInputPattern with
  | [] => 1
  | n :: rest => rest.foldl max n + 1

-- Spec-side view of article loading/composition for C7, and draft-operation
-- machinery for C8.

/-- Tagged view of `load_articles`: remembers whether each loaded entry came
from the text branch (decoded content) or the PDF branch (path). -/
inductive LoadedArticle where
  | text : String → LoadedArticle
  | pdf : String → LoadedArticle
deriving DecidableEq

/-- `load_articles` with its two branches tagged; `untagArticle` recovers the
implementation's untyped string list. -/
def load_articles_tagged (folder : List FileEntry) :
    List String → List LoadedArticle
  | [] => []
  | file_path :: rest =>
    if endsWithPdfLower file_path then
      match fsLookup folder file_path with
      | some c =>
        if readFirstBytes c 4 = pdfMagic then
          .pdf file_path :: load_articles_tagged folder rest
        else load_articles_tagged folder rest
      | none => load_articles_tagged folder rest
    else
      match fsLookup folder file_path with
      | some (.text s) =>
        if pyStrip s != "" then .text (pyStrip s) :: load_articles_tagged folder rest
        else load_articles_tagged folder rest
      | some (.binary _) => load_articles_tagged folder rest
      | none => load_articles_tagged folder rest

/-- Forget the tag of a loaded article. -/
def untagArticle : LoadedArticle → String
  | .text c => c
  | .pdf p => p

/-- Follows the spec's words: the composed request is the prompt template
first, then the instruction iff non-empty, then every text article in order,
then every valid PDF article as a binary attachment in order. -/
def compose_request_spec (prompt_template : String) (instruction : String)
    (articles : List LoadedArticle) : List ReqPart :=
  ([ReqPart.text prompt_template] ++
    (if instruction != "" then [ReqPart.text instruction] else [])) ++
  (articles.filterMap fun a =>
    match a with
    | .text c => some (ReqPart.text c)
    | .pdf _ => none) ++
  (articles.filterMap fun a =>
    match a with
    | .pdf p => some (ReqPart.upload p)
    | .text _ => none)

/-- A draft mutation: `SessionManager.add_article` or
`SessionManager.remove_article`. -/
inductive DraftOp where
  | addOp : ArticleData → DraftOp
  | removeOp : String → DraftOp
deriving DecidableEq

/-- Apply one draft operation to the article list. -/
def applyDraftOp (articles : List ArticleData) : DraftOp → List ArticleData
  | .addOp a => add_article articles a
  | .removeOp i => (remove_article articles i).2

/-- Apply a sequence of draft operations, left to right. -/
def applyDraftOps (articles : List ArticleData) (ops : List DraftOp) :
    List ArticleData :=
  ops.foldl applyDraftOp articles

/-- Whether some operation of the sequence removes the given id. -/
def removedIn (ops : List DraftOp) (i : String) : Bool :=
  ops.any fun op =>
    match op with
    | .removeOp j => j == i
    | .addOp _ => false

/-- The articles surviving a sequence of operations started from an empty
draft: each added article, in insertion order, unless a later operation
removes its id. -/
def survivingArticles : List DraftOp → List ArticleData
  | [] => []
  | .addOp a :: rest =>
    if removedIn rest a.id then survivingArticles rest
    else a :: survivingArticles rest
  | .removeOp _ :: rest => survivingArticles rest

/-- Follows the spec's words: remove the FIRST article whose id matches. -/
def removeFirstById : List ArticleData → String → List ArticleData
  | [], _ => []
  | a :: rest, i => if a.id == i then rest else a :: removeFirstById rest i

-- Helper lemmas about the ledger update.

theorem updateFirstMatch_absent (tasks : List TaskRecord) (task_id status : String)
    (result : Option String) (habsent : ∀ t ∈ tasks, t.task_id ≠ task_id) :
    updateFirstMatch tasks task_id status result = tasks := by
  induction tasks with
  | nil => rfl
  | cons t rest ih =>
    have h1 : t.task_id ≠ task_id := habsent t (by simp)
    have h2 : (t.task_id == task_id) = false := by
      simpa using h1
    simp only [updateFirstMatch, h2, Bool.false_eq_true, if_false]
    exact congrArg (t :: ·) (ih fun u hu => habsent u (by simp [hu]))

theorem updateFirstMatch_split (pre post : List TaskRecord) (t : TaskRecord)
    (task_id status : String) (result : Option String)
    (ht : t.task_id = task_id) (hpre : ∀ u ∈ pre, u.task_id ≠ task_id) :
    updateFirstMatch (pre ++ t :: post) task_id status result =
      pre ++ { t with status := status, result := result.getD t.result } :: post := by
  induction pre with
  | nil => simp [updateFirstMatch, ht]
  | cons u pre ih =>
    have h1 : u.task_id ≠ task_id := hpre u (by simp)
    have h2 : (u.task_id == task_id) = false := by simpa using h1
    simp only [List.cons_append, updateFirstMatch, h2, Bool.false_eq_true, if_false]
    exact congrArg (u :: ·) (ih fun v hv => hpre v (by simp [hv]))

/-- C1 counterexample: on a ledger that exists and parses but contains no record
with the requested task id, `update_task_status` returns `True` (success), not
failure; the parsed records are rewritten unchanged.  The ledger here holds one
task with id `"a"`, and the update targets id `"b"`. -/
theorem c1_counterexample :
    update_task_status
        (.parsed [{ task_id := "a", title := "T", articles := [],
                    instruction := "", status := "pending", result := "",
                    created_at := "c", user_folder := "u" }])
        "b" "failed" (some ("boom")) =
      (true,
       .parsed [{ task_id := "a", title := "T", articles := [],
                  instruction := "", status := "pending", result := "",
                  created_at := "c", user_folder := "u" }]) := by
  decide

/-- C1 (amended): for every ledger that exists and parses, calling
`update_task_status` with a task id absent from the ledger returns success
(`True`, not failure) and rewrites the ledger file with the same records, so the
parsed content is unchanged (byte-for-byte only up to JSON re-serialization). -/
theorem c1_update_task_status_absent (tasks : List TaskRecord)
    (task_id status : String) (result : Option String)
    (habsent : ∀ t ∈ tasks, t.task_id ≠ task_id) :
    update_task_status (.parsed tasks) task_id status result = (true, .parsed tasks) := by
  simp only [update_task_status, updateFirstMatch_absent tasks task_id status result habsent]

/-- C1 witness: the amended theorem applied to a concrete one-record ledger and
the absent id `"zzz"`. -/
theorem c1_witness :
    update_task_status
        (.parsed [{ task_id := "a", title := "T", articles := [],
                    instruction := "", status := "pending", result := "",
                    created_at := "c", user_folder := "u" }])
        "zzz" "completed" none =
      (true,
       .parsed [{ task_id := "a", title := "T", articles := [],
                  instruction := "", status := "pending", result := "",
                  created_at := "c", user_folder := "u" }]) :=
  c1_update_task_status_absent _ _ _ _ (by decide)

/-- C10: on a parseable ledger containing a matching record, `update_task_status`
mutates only the first matching record, changing only its `status` field and,
only when a result argument is provided, its `result` field (`result.getD`
keeps the old result when no argument is given); every other field of that
record and every other record (before or after, including later records with
the same id) are preserved unchanged, and the call reports success. -/
theorem c10_update_task_status_frame (pre post : List TaskRecord) (t : TaskRecord)
    (task_id status : String) (result : Option String)
    (ht : t.task_id = task_id) (hpre : ∀ u ∈ pre, u.task_id ≠ task_id) :
    update_task_status (.parsed (pre ++ t :: post)) task_id status result =
      (true, .parsed
        (pre ++ { t with status := status, result := result.getD t.result } :: post)) := by
  simp only [update_task_status,
    updateFirstMatch_split pre post t task_id status result ht hpre]

/-- C10 witness: a three-record ledger whose second and third records share the
id `"a"`; updating `"a"` with no result argument touches only the second record's
status and leaves its result and the duplicate third record intact. -/
theorem c10_witness :
    update_task_status
        (.parsed [{ task_id := "x", title := "X", articles := [],
                    instruction := "", status := "pending", result := "rx",
                    created_at := "c1", user_folder := "u" },
                  { task_id := "a", title := "A", articles := [],
                    instruction := "i", status := "pending", result := "old",
                    created_at := "c2", user_folder := "u" },
                  { task_id := "a", title := "B", articles := [],
                    instruction := "", status := "pending", result := "rb",
                    created_at := "c3", user_folder := "u" }])
        "a" "processing" none =
      (true,
       .parsed [{ task_id := "x", title := "X", articles := [],
                  instruction := "", status := "pending", result := "rx",
                  created_at := "c1", user_folder := "u" },
                { task_id := "a", title := "A", articles := [],
                  instruction := "i", status := "processing", result := "old",
                  created_at := "c2", user_folder := "u" },
                { task_id := "a", title := "B", articles := [],
                  instruction := "", status := "pending", result := "rb",
                  created_at := "c3", user_folder := "u" }]) :=
  c10_update_task_status_frame
    [{ task_id := "x", title := "X", articles := [], instruction := "",
       status := "pending", result := "rx", created_at := "c1", user_folder := "u" }]
    [{ task_id := "a", title := "B", articles := [], instruction := "",
       status := "pending", result := "rb", created_at := "c3", user_folder := "u" }]
    { task_id := "a", title := "A", articles := [], instruction := "i",
      status := "pending", result := "old", created_at := "c2", user_folder := "u" }
    "a" "processing" none rfl (by decide)

/-- C2: invoking the process route on a task id whose (first matching) ledger
record has status `"processing"` is rejected with the informational flash
`"Task is already being processed."` (category info, not error); the ledger
file is returned unchanged, so the task's status and result fields are not
altered; and the rejection happens for every possible client outcome, so no
processing is attempted. -/
theorem c2_process_task_processing_guard (file : LedgerFile) (task_id : String)
    (t : TaskRecord) (client : ClientOutcome)
    (hfind : get_task_by_id file task_id = some t)
    (hstatus : t.status = "processing") :
    route_process_task file task_id client =
      (file, .info, "Task is already being processed.") := by
  simp [route_process_task, hfind, hstatus]

/-- C2 witness: a one-record ledger whose task is `"processing"`; the route
rejects a re-trigger (here with a client that would have succeeded). -/
theorem c2_witness :
    route_process_task
        (.parsed [{ task_id := "p", title := "T", articles := [],
                    instruction := "", status := "processing", result := "r",
                    created_at := "c", user_folder := "u" }])
        "p" (.ok ("ignored")) =
      (.parsed [{ task_id := "p", title := "T", articles := [],
                  instruction := "", status := "processing", result := "r",
                  created_at := "c", user_folder := "u" }],
       .info, "Task is already being processed.") :=
  c2_process_task_processing_guard _ _
    { task_id := "p", title := "T", articles := [], instruction := "",
      status := "processing", result := "r", created_at := "c", user_folder := "u" }
    _ (by decide) rfl

/-- C4: when the draft is not ready (`is_task_ready` false: empty title or no
articles), `save_task` returns `None` and leaves the ledger file untouched, and
the create-task route leaves the session draft unchanged; moreover, for every
draft, the route clears the draft if and only if `save_task` returned a task id,
which happens if and only if the draft was ready and the ledger write
succeeded. -/
theorem c4_save_task_guard (d : TaskDraft) (file : LedgerFile) (writeOk : Bool)
    (new_task_id : String) (created_at : String) (user_folder : String) :
    (is_task_ready d = false →
      save_task d file writeOk new_task_id created_at user_folder = (none, file) ∧
      create_task_action (some d) file writeOk new_task_id created_at user_folder =
        (some d, file, none)) ∧
    ((create_task_action (some d) file writeOk new_task_id created_at user_folder).1 = none ↔
      ((create_task_action (some d) file writeOk new_task_id created_at
          user_folder).2.2).isSome = true) ∧
    ((create_task_action (some d) file writeOk new_task_id created_at user_folder).1 = none ↔
      (is_task_ready d = true ∧ writeOk = true)) := by
  by_cases hr : is_task_ready d = true
  · by_cases hw : writeOk = true
    · simp [save_task, create_task_action, hr, hw]
    · simp only [Bool.not_eq_true] at hw
      simp [save_task, create_task_action, hr, hw]
  · simp only [Bool.not_eq_true] at hr
    simp [save_task, create_task_action, hr]

/-- C4 witness: a draft with a title but no articles is not ready; `save_task`
is a no-op on an absent ledger and the route keeps the draft. -/
theorem c4_witness :
    save_task { title := "Only title", articles := [], instruction := "" }
        .absent true ("id1") ("ca") ("uf") = (none, .absent) ∧
    create_task_action (some { title := "Only title", articles := [], instruction := "" })
        .absent true ("id1") ("ca") ("uf") =
      (some { title := "Only title", articles := [], instruction := "" },
       .absent, none) :=
  (c4_save_task_guard { title := "Only title", articles := [], instruction := "" }
    .absent true ("id1") ("ca") ("uf")).1 (by decide)

-- C5: instruction resolution.

/-- C5 counterexample: with a preset reference naming a missing preset and a
persisted instruction file containing `hello`, `load_instruction` resolves to
`hello`, not to the empty string the claim requires. -/
theorem c5_counterexample :
    load_instruction (some ("hello")) [] (some ("missing")) = "hello" ∧
      ("hello" : String) ≠ "" := by
  constructor
  · decide
  · decide

/-- C5 (amended): with a truthy preset reference naming an existing preset, the
preset's stripped content is resolved; with a truthy preset reference naming a
MISSING preset the code warns and falls back to the persisted-instruction-file
resolution (not directly to empty); with no truthy preset reference the
persisted instruction file is read; and an absent instruction file yields the
empty string — never an error. -/
theorem c5_load_instruction_cases (instruction_file : Option String)
    (presets : List (String × String)) (preset_id : Option String) :
    (∀ p c, preset_id = some p → p ≠ "" →
      presets.find? (fun q => q.1 == p) = some c →
      load_instruction instruction_file presets preset_id = pyStrip c.2) ∧
    (∀ p, preset_id = some p → p ≠ "" →
      presets.find? (fun q => q.1 == p) = none →
      load_instruction instruction_file presets preset_id =
        load_instruction instruction_file presets none) ∧
    (pyTruthy preset_id = false →
      load_instruction instruction_file presets preset_id =
        load_instruction instruction_file presets none) ∧
    (instruction_file = none → load_instruction instruction_file presets none = "") := by
  refine ⟨?_, ?_, ?_, ?_⟩
  · intro p c hp hne hfind
    subst hp
    have ht : pyTruthy (some p) = true := by
      simp only [pyTruthy, bne_iff_ne, ne_eq]
      exact hne
    simp [load_instruction, ht, hfind]
  · intro p hp hne hfind
    subst hp
    have ht : pyTruthy (some p) = true := by
      simp only [pyTruthy, bne_iff_ne, ne_eq]
      exact hne
    simp [load_instruction, ht, hfind, pyTruthy]
  · intro ht
    have hnone : pyTruthy none = false := rfl
    simp only [load_instruction, ht, hnone, Bool.false_eq_true, if_false]
  · intro hnone
    subst hnone
    have hnone' : pyTruthy none = false := rfl
    simp only [load_instruction, hnone', Bool.false_eq_true, if_false]

/-- C5 witness: an existing preset wins over the persisted instruction file. -/
theorem c5_witness :
    load_instruction (some (" custom ")) [(("news"), ("Preset text"))]
      (some ("news")) = "Preset text" :=
  ((c5_load_instruction_cases (some (" custom "))
      [(("news"), ("Preset text"))] (some ("news"))).1
    ("news") (("news"), ("Preset text")) rfl (by decide) (by decide)).trans (by decide)

-- C8: draft add/remove sequences.

theorem applyDraftOps_characterization (ops : List DraftOp) (init : List ArticleData) :
    applyDraftOps init ops =
      init.filter (fun a => !(removedIn ops a.id)) ++ survivingArticles ops := by
  induction ops generalizing init with
  | nil => simp [applyDraftOps, survivingArticles, removedIn]
  | cons op rest ih =>
    cases op with
    | addOp a =>
      have step : applyDraftOps init (.addOp a :: rest)
          = applyDraftOps (init ++ [a]) rest := rfl
      have hrem : ∀ i, removedIn (DraftOp.addOp a :: rest) i = removedIn rest i := by
        intro i
        simp [removedIn]
      rw [step, ih]
      by_cases h : removedIn rest a.id = true
      · simp [List.filter_append, h, hrem, survivingArticles]
      · have h' : removedIn rest a.id = false := by
          simpa using h
        simp [List.filter_append, h', hrem, survivingArticles]
    | removeOp i =>
      have step : applyDraftOps init (.removeOp i :: rest)
          = applyDraftOps (init.filter (fun a => a.id != i)) rest := rfl
      rw [step, ih, List.filter_filter]
      have hpred : ∀ a : ArticleData,
          ((!removedIn rest a.id) && (a.id != i))
            = !(removedIn (DraftOp.removeOp i :: rest) a.id) := by
        intro a
        simp only [removedIn, List.any_cons, Bool.not_or, bne, eq_comm]
        cases h1 : i == a.id <;> cases h2 : List.any rest _ <;> simp_all [BEq.comm]
      simp only [hpred, survivingArticles]

/-- C8 counterexample: two added articles share the id `x` (with different
metadata); one `remove_article` call on `x` empties the draft, whereas
removing only the FIRST match — as the claim's cited behavior states — would
keep the second article. -/
theorem c8_counterexample :
    applyDraftOps []
        [.addOp { id := "x", articleType := "text", file_path := "input1.txt",
                  filename := "input1.txt", source := "Text Input", preview := "first" },
         .addOp { id := "x", articleType := "text", file_path := "input2.txt",
                  filename := "input2.txt", source := "Text Input", preview := "second" },
         .removeOp ("x")] = [] ∧
    removeFirstById
        [{ id := "x", articleType := "text", file_path := "input1.txt",
           filename := "input1.txt", source := "Text Input", preview := "first" },
         { id := "x", articleType := "text", file_path := "input2.txt",
           filename := "input2.txt", source := "Text Input", preview := "second" }]
        ("x") =
      [{ id := "x", articleType := "text", file_path := "input2.txt",
         filename := "input2.txt", source := "Text Input", preview := "second" }] ∧
    ([] : List ArticleData) ≠
      [{ id := "x", articleType := "text", file_path := "input2.txt",
         filename := "input2.txt", source := "Text Input", preview := "second" }] := by
  refine ⟨by decide, by decide, by decide⟩

/-- C8 (amended): `remove_article` removes EVERY article whose id matches (not
only the first) and returns the first matching article's metadata (`none` when
no id matches, `some` exactly when one exists).  Consequently, after any prefix
of a sequence of add/remove operations on an initialized draft, the article
list contains exactly the added articles whose id is not removed by any later
operation of the prefix, in their original insertion order; when ids are
unique (the normal case, ids being freshly generated uuids) this coincides
with the claim's first-match removal. -/
theorem c8_draft_operations (ops : List DraftOp) :
    applyDraftOps [] ops = survivingArticles ops ∧
    ∀ (articles : List ArticleData) (article_id : String),
      ((remove_article articles article_id).1.isSome = true ↔
        ∃ a ∈ articles, a.id = article_id) := by
  constructor
  · have h := applyDraftOps_characterization ops []
    simpa using h
  · intro articles article_id
    simp [remove_article, List.find?_isSome]

/-- C8 witness: a concrete interleaving with distinct ids; the second added
article is removed, the first and third survive in insertion order. -/
theorem c8_witness :
    applyDraftOps []
        [.addOp { id := "a", articleType := "text", file_path := "input1.txt",
                  filename := "input1.txt", source := "Text Input", preview := "pa" },
         .addOp { id := "b", articleType := "pdf", file_path := "input2.pdf",
                  filename := "input2.pdf", source := "PDF Upload", preview := "pb" },
         .removeOp ("b"),
         .addOp { id := "c", articleType := "text", file_path := "input3.txt",
                  filename := "input3.txt", source := "Text Input", preview := "pc" }] =
      survivingArticles
        [.addOp { id := "a", articleType := "text", file_path := "input1.txt",
                  filename := "input1.txt", source := "Text Input", preview := "pa" },
         .addOp { id := "b", articleType := "pdf", file_path := "input2.pdf",
                  filename := "input2.pdf", source := "PDF Upload", preview := "pb" },
         .removeOp ("b"),
         .addOp { id := "c", articleType := "text", file_path := "input3.txt",
                  filename := "input3.txt", source := "Text Input", preview := "pc" }] ∧
    survivingArticles
        [.addOp { id := "a", articleType := "text", file_path := "input1.txt",
                  filename := "input1.txt", source := "Text Input", preview := "pa" },
         .addOp { id := "b", articleType := "pdf", file_path := "input2.pdf",
                  filename := "input2.pdf", source := "PDF Upload", preview := "pb" },
         .removeOp ("b"),
         .addOp { id := "c", articleType := "text", file_path := "input3.txt",
                  filename := "input3.txt", source := "Text Input", preview := "pc" }] =
      [{ id := "a", articleType := "text", file_path := "input1.txt",
         filename := "input1.txt", source := "Text Input", preview := "pa" },
       { id := "c", articleType := "text", file_path := "input3.txt",
         filename := "input3.txt", source := "Text Input", preview := "pc" }] :=
  ⟨(c8_draft_operations _).1, by decide⟩

-- C9: text-article storage.

theorem fsLookup_mapUpdate (name : String) (content : FileContent) :
    ∀ folder : List FileEntry, fsExists folder name = true →
      fsLookup
          (folder.map fun e =>
            if e.name == name then { name := name, content := content } else e)
          name = some content := by
  intro folder
  induction folder with
  | nil => intro h; simp [fsExists, fsLookup] at h
  | cons e rest ih =>
    intro h
    by_cases he : (e.name == name) = true
    · rw [List.map_cons, if_pos he]
      unfold fsLookup
      rw [@List.find?_cons_of_pos FileEntry (fun e => e.name == name)
        { name := name, content := content } _ (by simp)]
      rfl
    · have he' : ¬((fun e : FileEntry => e.name == name) e = true) := by simp_all
      have hex : fsExists rest name = true := by
        unfold fsExists fsLookup at h ⊢
        rwa [@List.find?_cons_of_neg FileEntry (fun e => e.name == name) e _ he'] at h
      rw [List.map_cons, if_neg (by simp_all)]
      unfold fsLookup
      rw [@List.find?_cons_of_neg FileEntry (fun e => e.name == name) e _ he']
      exact ih hex

theorem fsLookup_append_new (name : String) (content : FileContent) :
    ∀ folder : List FileEntry, fsExists folder name = false →
      fsLookup (folder ++ [{ name := name, content := content }]) name
        = some content := by
  intro folder
  induction folder with
  | nil =>
    intro _
    unfold fsLookup
    rw [List.nil_append,
      @List.find?_cons_of_pos FileEntry (fun e => e.name == name)
        { name := name, content := content } _ (by simp)]
    rfl
  | cons e rest ih =>
    intro h
    have he' : ¬((fun e : FileEntry => e.name == name) e = true) := by
      intro hc
      unfold fsExists fsLookup at h
      rw [@List.find?_cons_of_pos FileEntry (fun e => e.name == name) e _ hc] at h
      simp at h
    have hex : fsExists rest name = false := by
      unfold fsExists fsLookup at h ⊢
      rwa [@List.find?_cons_of_neg FileEntry (fun e => e.name == name) e _ he'] at h
    rw [List.cons_append]
    unfold fsLookup
    rw [@List.find?_cons_of_neg FileEntry (fun e => e.name == name) e _ he']
    exact ih hex

theorem fsLookup_fsWrite (folder : List FileEntry) (name : String)
    (content : FileContent) :
    fsLookup (fsWrite folder name content) name = some content := by
  unfold fsWrite
  by_cases h : fsExists folder name = true
  · rw [if_pos h]
    exact fsLookup_mapUpdate name content folder h
  · rw [if_neg h]
    exact fsLookup_append_new name content folder (by simpa using h)

/-- C9: for every text content stored via `save_text_article` (with the write
succeeding), the content is written verbatim to `input<seq>.txt` — looking the
file up afterwards returns exactly the content — and the returned article
metadata's preview is the first 50 characters followed by an ellipsis when the
content is longer than 50 characters, and the full content otherwise. -/
theorem c9_save_text_article (article_content : String) (folder : List FileEntry)
    (input_number : Int) (new_id : String) (errText : String) :
    ((save_text_article article_content folder input_number true new_id errText).1).map
        (fun a => a.preview) =
      some (if article_content.length > 50 then article_content.take 50 ++ "..."
            else article_content) ∧
    fsLookup
        ((save_text_article article_content folder input_number true new_id errText).2.2)
        ("input" ++ toString input_number ++ ".txt") =
      some (.text article_content) := by
  constructor
  · simp [save_text_article]
  · simp only [save_text_article, if_true]
    exact fsLookup_fsWrite folder _ _

-- C7: request composition.

theorem load_articles_eq_untag (folder : List FileEntry) :
    ∀ paths : List String,
      load_articles folder paths = (load_articles_tagged folder paths).map untagArticle := by
  intro paths
  induction paths with
  | nil => rfl
  | cons p rest ih =>
    by_cases h1 : endsWithPdfLower p = true
    · simp only [load_articles, load_articles_tagged, h1, if_true]
      cases h2 : fsLookup folder p with
      | none => exact ih
      | some c =>
        by_cases h3 : readFirstBytes c 4 = pdfMagic
        · simp only [if_pos h3, List.map_cons, untagArticle, ih]
        · simp only [if_neg h3]
          exact ih
    · have h1' : endsWithPdfLower p = false := by simpa using h1
      simp only [load_articles, load_articles_tagged, h1', Bool.false_eq_true, if_false]
      cases h2 : fsLookup folder p with
      | none => exact ih
      | some c =>
        cases c with
        | text s =>
          by_cases h3 : (pyStrip s != "") = true
          · simp only [if_pos h3, List.map_cons, untagArticle, ih]
          · simp only [if_neg h3]
            exact ih
        | binary bs => exact ih

theorem load_tagged_pdf_inv (folder : List FileEntry) :
    ∀ (paths : List String) (p : String),
      LoadedArticle.pdf p ∈ load_articles_tagged folder paths →
      endsWithPdfLower p = true ∧ fsExists folder p = true := by
  intro paths
  induction paths with
  | nil =>
    intro p h
    simp [load_articles_tagged] at h
  | cons q rest ih =>
    intro p h
    by_cases h1 : endsWithPdfLower q = true
    · simp only [load_articles_tagged, h1, if_true] at h
      cases h2 : fsLookup folder q with
      | none =>
        rw [h2] at h
        exact ih p h
      | some c =>
        rw [h2] at h
        dsimp only at h
        by_cases h3 : readFirstBytes c 4 = pdfMagic
        · rw [if_pos h3] at h
          rcases List.mem_cons.mp h with heq | hmem
          · cases heq
            exact ⟨h1, by simp [fsExists, h2]⟩
          · exact ih p hmem
        · rw [if_neg h3] at h
          exact ih p h
    · have h1' : endsWithPdfLower q = false := by simpa using h1
      simp only [load_articles_tagged, h1', Bool.false_eq_true, if_false] at h
      cases h2 : fsLookup folder q with
      | none =>
        rw [h2] at h
        exact ih p h
      | some c =>
        rw [h2] at h
        cases c with
        | text s =>
          dsimp only at h
          by_cases h3 : (pyStrip s != "") = true
          · rw [if_pos h3] at h
            rcases List.mem_cons.mp h with heq | hmem
            · cases heq
            · exact ih p hmem
          · rw [if_neg h3] at h
            exact ih p h
        | binary bs =>
          dsimp only at h
          exact ih p h

theorem textArticleParts_untag (arts : List LoadedArticle)
    (htext : ∀ c, LoadedArticle.text c ∈ arts → endsWithPdfLower c = false)
    (hpdf : ∀ p, LoadedArticle.pdf p ∈ arts → endsWithPdfLower p = true) :
    textArticleParts (arts.map untagArticle) =
      arts.filterMap (fun a =>
        match a with
        | .text c => some (ReqPart.text c)
        | .pdf _ => none) := by
  induction arts with
  | nil => rfl
  | cons a rest ih =>
    have ih' := ih (fun c hc => htext c (by simp [hc]))
      (fun p hp => hpdf p (by simp [hp]))
    cases a with
    | text c =>
      have hc : endsWithPdfLower c = false := htext c (by simp)
      simp only [List.map_cons, untagArticle, textArticleParts, hc, Bool.false_eq_true,
        if_false, List.filterMap_cons]
      exact congrArg (ReqPart.text c :: ·) ih'
    | pdf p =>
      have hp : endsWithPdfLower p = true := hpdf p (by simp)
      simp only [List.map_cons, untagArticle, textArticleParts, hp, if_true,
        List.filterMap_cons]
      exact ih'

theorem pdfArticleParts_untag (folder : List FileEntry) (arts : List LoadedArticle)
    (htext : ∀ c, LoadedArticle.text c ∈ arts → endsWithPdfLower c = false)
    (hpdf : ∀ p, LoadedArticle.pdf p ∈ arts →
      endsWithPdfLower p = true ∧ fsExists folder p = true) :
    pdfArticleParts folder (arts.map untagArticle) =
      arts.filterMap (fun a =>
        match a with
        | .pdf p => some (ReqPart.upload p)
        | .text _ => none) := by
  induction arts with
  | nil => rfl
  | cons a rest ih =>
    have ih' := ih (fun c hc => htext c (by simp [hc]))
      (fun p hp => hpdf p (by simp [hp]))
    cases a with
    | text c =>
      have hc : endsWithPdfLower c = false := htext c (by simp)
      simp only [List.map_cons, untagArticle, pdfArticleParts, hc, Bool.false_and,
        Bool.false_eq_true, if_false, List.filterMap_cons]
      exact ih'
    | pdf p =>
      have hp := hpdf p (by simp)
      simp only [List.map_cons, untagArticle, pdfArticleParts, hp.1, hp.2, Bool.and_self,
        if_true, List.filterMap_cons]
      exact congrArg (ReqPart.upload p :: ·) ih'

/-- C7 counterexample: the loaded articles of a folder whose single text file
contains the text `report.pdf` consist of that one text article, yet the
composed request contains only the prompt: the text article's content ends in
`.pdf`, so the implementation misroutes it to the PDF-attachment branch and
drops it (no file of that name exists), while the claim's composition keeps it
as a text part after the prompt. -/
theorem c7_counterexample :
    load_articles [{ name := "input1.txt", content := .text ("report.pdf") }]
        ["input1.txt"] = ["report.pdf"] ∧
    load_articles_tagged [{ name := "input1.txt", content := .text ("report.pdf") }]
        ["input1.txt"] = [.text ("report.pdf")] ∧
    build_content_parts [{ name := "input1.txt", content := .text ("report.pdf") }]
        ("P")
        (load_articles [{ name := "input1.txt", content := .text ("report.pdf") }]
          ["input1.txt"])
        ("") = [.text ("P")] ∧
    compose_request_spec ("P") ("")
        (load_articles_tagged [{ name := "input1.txt", content := .text ("report.pdf") }]
          ["input1.txt"]) = [.text ("P"), .text ("report.pdf")] ∧
    ([ReqPart.text ("P")] : List ReqPart) ≠ [.text ("P"), .text ("report.pdf")] := by
  refine ⟨by decide, by decide, by decide, by decide, by decide⟩

/-- C7 (amended): for every prompt template, instruction string and list of
loaded articles, provided that no loaded TEXT article's content ends
(case-insensitively) in `.pdf`, the composed request is exactly: the prompt
template first, then the instruction iff it is non-empty, then every text
article in order, then every valid PDF article as a binary attachment in
order.  (A text article whose content ends in `.pdf` is instead misrouted to
the PDF-attachment branch: attached if a file of that name exists, silently
dropped otherwise.) -/
theorem c7_build_content_parts (folder : List FileEntry) (paths : List String)
    (prompt_template : String) (instruction : String)
    (h : ∀ c, LoadedArticle.text c ∈ load_articles_tagged folder paths →
      endsWithPdfLower c = false) :
    build_content_parts folder prompt_template (load_articles folder paths) instruction =
      compose_request_spec prompt_template instruction
        (load_articles_tagged folder paths) := by
  rw [load_articles_eq_untag]
  unfold build_content_parts compose_request_spec
  rw [textArticleParts_untag _ h
        (fun p hp => (load_tagged_pdf_inv folder paths p hp).1),
      pdfArticleParts_untag folder _ h
        (fun p hp => load_tagged_pdf_inv folder paths p hp)]

/-- C7 witness: a folder with one text article and one valid PDF; the composed
request is prompt, instruction, the text content, then the PDF attachment. -/
theorem c7_witness :
    build_content_parts
        [{ name := "input1.txt", content := .text ("Hello world") },
         { name := "input2.pdf", content := .binary [37, 80, 68, 70, 49] }]
        ("P")
        (load_articles
          [{ name := "input1.txt", content := .text ("Hello world") },
           { name := "input2.pdf", content := .binary [37, 80, 68, 70, 49] }]
          ["input1.txt", "input2.pdf"])
        ("I") =
      compose_request_spec ("P") ("I")
        (load_articles_tagged
          [{ name := "input1.txt", content := .text ("Hello world") },
           { name := "input2.pdf", content := .binary [37, 80, 68, 70, 49] }]
          ["input1.txt", "input2.pdf"]) :=
  c7_build_content_parts _ _ _ _ (by
    intro c hc
    have heq : load_articles_tagged
        [{ name := "input1.txt", content := .text ("Hello world") },
         { name := "input2.pdf", content := .binary [37, 80, 68, 70, 49] }]
        ["input1.txt", "input2.pdf"] =
        [.text ("Hello world"), .pdf ("input2.pdf")] := by decide
    rw [heq] at hc
    simp only [List.mem_cons, List.not_mem_nil, or_false] at hc
    rcases hc with hc | hc
    · cases hc
      decide
    · cases hc)

-- C3: invalid-PDF task fails before the external service is reached.

theorem find?_updateFirstMatch (tasks : List TaskRecord) (task_id : String)
    (status : String) (result : Option String) :
    (updateFirstMatch tasks task_id status result).find? (fun u => u.task_id == task_id) =
      (tasks.find? (fun u => u.task_id == task_id)).map
        (fun u => { u with status := status, result := result.getD u.result }) := by
  induction tasks with
  | nil => rfl
  | cons t rest ih =>
    by_cases h : (t.task_id == task_id) = true
    · simp only [updateFirstMatch, h, if_true]
      rw [@List.find?_cons_of_pos TaskRecord (fun u => u.task_id == task_id) _ rest
            (by simpa using h),
          @List.find?_cons_of_pos TaskRecord (fun u => u.task_id == task_id) t rest h]
      rfl
    · have hb : (t.task_id == task_id) = false := by simpa using h
      simp only [updateFirstMatch, hb, Bool.false_eq_true, if_false]
      rw [@List.find?_cons_of_neg TaskRecord (fun u => u.task_id == task_id) t _
            (by simp [hb]),
          @List.find?_cons_of_neg TaskRecord (fun u => u.task_id == task_id) t rest
            (by simp [hb])]
      exact ih

/-- C3: for every task found in the ledger and not already `processing`, if the
storage root's only article file is a PDF (by name) whose content does not
start with the `%PDF` magic bytes, then the client fails with the wrapped
message `Error processing task: No articles found to process` for EVERY
possible external generation service (so no call reaches it — the failure is
decided before the service parameter is consulted), and the process route then
records status `failed` with that descriptive message as the task's result,
flashing an error. -/
theorem c3_invalid_pdf_fails_before_service
    (folder : List FileEntry) (pdfName : String) (bs : List Nat)
    (file : LedgerFile) (task_id : String) (t : TaskRecord)
    (prompt_template : String) (preset_id : Option String)
    (presets : List (String × String)) (gemini : List ReqPart → GeminiResult)
    (hlist : articleFilesOf folder = [pdfName])
    (hpdfname : endsWithPdfLower pdfName = true)
    (hcontent : fsLookup folder pdfName = some (.binary bs))
    (hheader : bs.take 4 ≠ pdfMagic)
    (hfind : get_task_by_id file task_id = some t)
    (hstatus : t.status ≠ "processing") :
    clientProcessTask folder prompt_template preset_id presets gemini =
      .failure ("Error processing task: No articles found to process") ∧
    get_task_by_id
        (route_process_task file task_id
          (clientProcessTask folder prompt_template preset_id presets gemini)).1
        task_id =
      some { t with status := "failed",
                    result := "Error processing task: No articles found to process" } ∧
    (route_process_task file task_id
        (clientProcessTask folder prompt_template preset_id presets gemini)).2.1 =
      FlashKind.error := by
  have hload : load_articles folder (articleFilesOf folder) = [] := by
    rw [hlist]
    simp only [load_articles, hpdfname, if_true, hcontent]
    simp only [readFirstBytes]
    rw [if_neg hheader]
  have hwrap : wrapGenericError ("No articles found to process") =
      "Error processing task: No articles found to process" := by decide
  have hclient : clientProcessTask folder prompt_template preset_id presets gemini =
      .failure ("Error processing task: No articles found to process") := by
    simp only [clientProcessTask, hload, List.isEmpty_nil, if_true, hwrap]
  obtain ⟨ts, rfl⟩ : ∃ ts, file = .parsed ts := by
    cases file with
    | parsed ts => exact ⟨ts, rfl⟩
    | absent => simp [get_task_by_id] at hfind
    | corrupt => simp [get_task_by_id] at hfind
  have hfind' : ts.find? (fun u => u.task_id == task_id) = some t := hfind
  have hbs : (t.status == "processing") = false := by simpa using hstatus
  have hroute : route_process_task (.parsed ts) task_id
      (.failure ("Error processing task: No articles found to process")) =
      (.parsed (updateFirstMatch
          (updateFirstMatch ts task_id ("processing") none) task_id ("failed")
          (some ("Error processing task: No articles found to process"))),
       FlashKind.error,
       "Error processing task: " ++ "Error processing task: No articles found to process") := by
    simp only [route_process_task, hfind]
    simp only [hbs, Bool.false_eq_true, if_false]
    rfl
  refine ⟨hclient, ?_, ?_⟩
  · rw [hclient, hroute]
    simp only [get_task_by_id]
    rw [find?_updateFirstMatch, find?_updateFirstMatch, hfind']
    rfl
  · rw [hclient, hroute]

/-- C3 witness: one pending task, one article file `input1.pdf` with bytes
`[1, 2, 3, 4]` (not `%PDF`), an arbitrary concrete service; the client fails
with the descriptive message and the ledger records `failed`. -/
theorem c3_witness :
    clientProcessTask [{ name := "input1.pdf", content := .binary [1, 2, 3, 4] }]
        ("P") none [] (fun _ => .response none) =
      .failure ("Error processing task: No articles found to process") ∧
    get_task_by_id
        (route_process_task
          (.parsed [{ task_id := "t1", title := "T", articles := [],
                      instruction := "", status := "pending", result := "",
                      created_at := "c", user_folder := "u" }])
          "t1"
          (clientProcessTask [{ name := "input1.pdf", content := .binary [1, 2, 3, 4] }]
            ("P") none [] (fun _ => .response none))).1
        "t1" =
      some { task_id := "t1", title := "T", articles := [],
             instruction := "", status := "failed",
             result := "Error processing task: No articles found to process",
             created_at := "c", user_folder := "u" } ∧
    (route_process_task
        (.parsed [{ task_id := "t1", title := "T", articles := [],
                    instruction := "", status := "pending", result := "",
                    created_at := "c", user_folder := "u" }])
        "t1"
        (clientProcessTask [{ name := "input1.pdf", content := .binary [1, 2, 3, 4] }]
          ("P") none [] (fun _ => .response none))).2.1 =
      FlashKind.error :=
  c3_invalid_pdf_fails_before_service
    [{ name := "input1.pdf", content := .binary [1, 2, 3, 4] }]
    ("input1.pdf") [1, 2, 3, 4]
    (.parsed [{ task_id := "t1", title := "T", articles := [],
                instruction := "", status := "pending", result := "",
                created_at := "c", user_folder := "u" }])
    ("t1")
    { task_id := "t1", title := "T", articles := [], instruction := "",
      status := "pending", result := "", created_at := "c", user_folder := "u" }
    ("P") none [] (fun _ => .response none)
    (by decide) (by decide) (by decide) (by decide) (by decide) (by decide)

-- C6: next input number.

theorem isDigit_not_ws (c : Char) (h : c.isDigit = true) :
    isPyWhitespaceChar c = false := by
  by_contra hcon
  rw [Bool.not_eq_false] at hcon
  simp only [isPyWhitespaceChar, Bool.or_eq_true, beq_iff_eq] at hcon
  rcases hcon with ((((rfl | rfl) | rfl) | rfl) | rfl) | rfl <;> exact absurd h (by decide)

theorem isDigit_beq_false (c : Char) (x : Char) (h : c.isDigit = true)
    (hx : x.isDigit = false) : (c == x) = false := by
  by_contra hcon
  rw [Bool.not_eq_false, beq_iff_eq] at hcon
  subst hcon
  simp [h] at hx

theorem dropWhile_eq_self_of_none {p : Char → Bool} :
    ∀ l : List Char, (∀ c ∈ l, p c = false) → l.dropWhile p = l := by
  intro l h
  cases l with
  | nil => rfl
  | cons c t =>
    rw [List.dropWhile_cons, if_neg (by simp [h c (by simp)])]

theorem pyStripList_eq_self (l : List Char)
    (h : ∀ c ∈ l, isPyWhitespaceChar c = false) : pyStripList l = l := by
  unfold pyStripList
  rw [dropWhile_eq_self_of_none l h,
      dropWhile_eq_self_of_none l.reverse (fun c hc => h c (List.mem_reverse.mp hc)),
      List.reverse_reverse]

theorem noDoubleUnderscore_of_digits :
    ∀ l : List Char, (∀ c ∈ l, c.isDigit = true) → noDoubleUnderscore l = true := by
  intro l
  induction l with
  | nil => intro _; rfl
  | cons c t ih =>
    intro h
    cases t with
    | nil => rfl
    | cons c2 t2 =>
      have hc : (c == '_') = false :=
        isDigit_beq_false c '_' (h c (by simp)) (by decide)
      simp only [noDoubleUnderscore, hc, Bool.false_and, Bool.not_false, Bool.true_and]
      exact ih (fun x hx => h x (by simp [hx]))

theorem validDigitRun_of_digits (l : List Char) (hne : l ≠ [])
    (h : ∀ c ∈ l, c.isDigit = true) : validDigitRun l = true := by
  have h1 : l.isEmpty = false := by
    cases l with
    | nil => exact absurd rfl hne
    | cons c t => rfl
  have h2 : l.head? ≠ some '_' := by
    cases l with
    | nil => simp
    | cons c t =>
      intro hc
      rw [List.head?_cons] at hc
      injection hc with hc'
      subst hc'
      exact absurd (h '_' (by simp)) (by decide)
  have h3 : l.getLast? ≠ some '_' := by
    intro hc
    have hm : '_' ∈ l := List.mem_of_mem_getLast? hc
    exact absurd (h '_' hm) (by decide)
  have h4 : ∀ c ∈ l, (c.isDigit || c == '_') = true := by
    intro c hc
    simp [h c hc]
  have h5 := noDoubleUnderscore_of_digits l h
  simp only [validDigitRun, Bool.and_eq_true, Bool.not_eq_true', bne_iff_ne, ne_eq,
    List.all_eq_true]
  exact ⟨⟨⟨⟨h1, h2⟩, h3⟩, h4⟩, h5⟩

theorem filter_not_underscore_of_digits (l : List Char)
    (h : ∀ c ∈ l, c.isDigit = true) : l.filter (fun c => c != '_') = l := by
  apply List.filter_eq_self.mpr
  intro a ha
  simp only [bne_iff_ne, ne_eq]
  rintro rfl
  exact absurd (h '_' ha) (by decide)

theorem pyInt_digits (l : List Char) (hne : l ≠ [])
    (h : ∀ c ∈ l, c.isDigit = true) : pyInt l = some (digitsVal l) := by
  have hstrip : pyStripList l = l :=
    pyStripList_eq_self l (fun c hc => isDigit_not_ws c (h c hc))
  obtain ⟨d, t0, rfl⟩ : ∃ d t0, l = d :: t0 := by
    cases l with
    | nil => exact absurd rfl hne
    | cons d t0 => exact ⟨d, t0, rfl⟩
  have hd : d.isDigit = true := h d (by simp)
  unfold pyInt
  rw [hstrip]
  split
  · rename_i rest heq
    rw [List.cons.injEq] at heq
    rw [heq.1] at hd
    exact absurd hd (by decide)
  · rename_i rest heq
    rw [List.cons.injEq] at heq
    rw [heq.1] at hd
    exact absurd hd (by decide)
  · rw [if_pos (validDigitRun_of_digits _ hne h), filter_not_underscore_of_digits _ h]

theorem removeInput_cons_digit (d : Char) (l : List Char) (hd : d.isDigit = true) :
    removeInput (d :: l) = d :: removeInput l := by
  have hne : d ≠ 'i' := by rintro rfl; exact absurd hd (by decide)
  rw [removeInput.eq_def]
  split
  · simp_all
  · simp_all
  · simp_all

theorem removeInput_digits_append (ds l : List Char)
    (h : ∀ c ∈ ds, c.isDigit = true) :
    removeInput (ds ++ l) = ds ++ removeInput l := by
  induction ds with
  | nil => simp
  | cons d ds' ih =>
    rw [List.cons_append, removeInput_cons_digit d _ (h d (by simp)),
        ih (fun c hc => h c (by simp [hc])), List.cons_append]

theorem beforeFirstDot_digits_append (ds t : List Char)
    (h : ∀ c ∈ ds, c.isDigit = true) :
    beforeFirstDot (ds ++ '.' :: t) = ds := by
  induction ds with
  | nil => simp [beforeFirstDot]
  | cons d ds' ih =>
    have hne : (d == '.') = false :=
      isDigit_beq_false d '.' (h d (by simp)) (by decide)
    simp only [List.cons_append, beforeFirstDot, hne, Bool.false_eq_true, if_false]
    exact congrArg (d :: ·) (ih (fun c hc => h c (by simp [hc])))

theorem matchesInputPattern_sound (f : List Char) (n : Int)
    (h : matchesInputPattern f = some n) :
    isInputCandidate f = true ∧ parseInputNumber f = some n := by
  rw [matchesInputPattern.eq_def] at h
  split at h
  · rename_i rest
    split at h
    · rename_i hcond
      injection h with hn
      simp only [Bool.and_eq_true, Bool.or_eq_true, Bool.not_eq_true',
        beq_iff_eq] at hcond
      obtain ⟨hne', hext⟩ := hcond
      have hsplit : rest.takeWhile Char.isDigit ++ rest.dropWhile Char.isDigit = rest :=
        List.takeWhile_append_dropWhile Char.isDigit rest
      have hdsdig : ∀ c ∈ rest.takeWhile Char.isDigit, c.isDigit = true :=
        fun c hc => List.mem_takeWhile_imp hc
      have hdsne : rest.takeWhile Char.isDigit ≠ [] := by
        intro hc
        rw [hc] at hne'
        simp at hne'
      constructor
      · simp only [isInputCandidate, Bool.and_eq_true, Bool.or_eq_true, beq_iff_eq]
        constructor
        · simp [inputChars]
        · have hshape : 'i' :: 'n' :: 'p' :: 'u' :: 't' :: rest =
              ('i' :: 'n' :: 'p' :: 'u' :: 't' :: rest.takeWhile Char.isDigit) ++
                rest.dropWhile Char.isDigit := by
            simp [hsplit]
          rcases hext with he | he
          · right
            rw [List.isSuffixOf_iff_suffix, hshape, he]
            exact List.suffix_append _ _
          · left
            rw [List.isSuffixOf_iff_suffix, hshape, he]
            exact List.suffix_append _ _
      · unfold parseInputNumber
        have h1 : removeInput ('i' :: 'n' :: 'p' :: 'u' :: 't' :: rest) =
            removeInput rest := rfl
        rw [h1, ← hsplit, removeInput_digits_append _ _ hdsdig]
        rcases hext with he | he <;> rw [he]
        · have h2 : removeInput txtExtChars = txtExtChars := rfl
          rw [h2]
          show pyInt (beforeFirstDot (rest.takeWhile Char.isDigit ++ '.' :: ['t', 'x', 't'])) = some n
          rw [beforeFirstDot_digits_append _ _ hdsdig,
              pyInt_digits _ hdsne hdsdig, hn]
        · have h2 : removeInput pdfExtChars = pdfExtChars := rfl
          rw [h2]
          show pyInt (beforeFirstDot (rest.takeWhile Char.isDigit ++ '.' :: ['p', 'd', 'f'])) = some n
          rw [beforeFirstDot_digits_append _ _ hdsdig,
              pyInt_digits _ hdsne hdsdig, hn]
    · exact absurd h (by simp)
  · exact absurd h (by simp)

/-- C6 counterexample: the directory listing `[input-3.txt]` contains no file
matching the pattern `input<digits>.{txt|pdf}` (the spec-side
`next_sequence_number` returns 1), yet `get_next_input_number` returns `-2`:
Python `int` parses the remainder `-3` (sign accepted), so the claimed
result 1 — and the claim that non-digit remainders are ignored — is false. -/
theorem c6_counterexample :
    get_next_input_number [("input-3.txt").toList] = -2 ∧
    next_sequence_number [("input-3.txt").toList] = 1 := by
  refine ⟨by decide, by decide⟩

/-- C6 (amended): `get_next_input_number` returns 1 when no candidate file
(name starting `input`, ending `.txt`/`.pdf`) has a remainder accepted by
Python `int` — otherwise max(parsed) + 1 — where the parse also accepts signed,
whitespace-padded or underscore-separated numerals and remainders cut at the
first dot.  For every directory in which each candidate filename either
matches `input<digits>.{txt|pdf}` exactly or has a remainder Python `int`
rejects, this coincides with the spec's description `next_sequence_number`
(1 when nothing matches the pattern, else max(matched digits) + 1, malformed
names ignored, gaps not reused). -/
theorem c6_get_next_input_number (files : List (List Char))
    (h : ∀ f ∈ files, isInputCandidate f = true →
      (matchesInputPattern f).isSome = true ∨ parseInputNumber f = none) :
    get_next_input_number files = next_sequence_number files := by
  have key : (files.filter isInputCandidate).filterMap parseInputNumber =
      files.filterMap matchesInputPattern := by
    induction files with
    | nil => rfl
    | cons f rest ih =>
      have ih' := ih (fun g hg hc => h g (by simp [hg]) hc)
      by_cases hc : isInputCandidate f = true
      · rcases h f (by simp) hc with hm | hp
        · obtain ⟨n, hn⟩ := Option.isSome_iff_exists.mp hm
          obtain ⟨_, hpar⟩ := matchesInputPattern_sound f n hn
          simp only [List.filter_cons, hc, if_true, List.filterMap_cons, hpar, hn, ih']
        · have hm : matchesInputPattern f = none := by
            cases hmm2 : matchesInputPattern f with
            | none => rfl
            | some n =>
              obtain ⟨_, hpar⟩ := matchesInputPattern_sound f n hmm2
              rw [hpar] at hp
              exact absurd hp (by simp)
          simp only [List.filter_cons, hc, if_true, List.filterMap_cons, hp, hm, ih']
      · have hc' : isInputCandidate f = false := by simpa using hc
        have hm : matchesInputPattern f = none := by
          cases hmm2 : matchesInputPattern f with
          | none => rfl
          | some n =>
            obtain ⟨hcand, _⟩ := matchesInputPattern_sound f n hmm2
            rw [hcand] at hc'
            exact absurd hc' (by simp)
        simp only [List.filter_cons, hc', Bool.false_eq_true, if_false,
          List.filterMap_cons, hm, ih']
  by_cases he : (files.filter isInputCandidate).isEmpty = true
  · have h0 : files.filter isInputCandidate = [] := by
      simpa [List.isEmpty_iff] using he
    have h1 : files.filterMap matchesInputPattern = [] := by
      rw [← key, h0]
      rfl
    simp only [get_next_input_number, next_sequence_number, he, if_true, h1]
  · have he' : (files.filter isInputCandidate).isEmpty = false := by simpa using he
    simp only [get_next_input_number, next_sequence_number, he', Bool.false_eq_true,
      if_false, key]

/-- C6 witness: the listing `[input1.txt, input3.pdf, notes.txt]` satisfies the
digit-only side condition; implementation and spec description agree and both
return 4 (the gap at 2 is not reused). -/
theorem c6_witness :
    get_next_input_number
        [("input1.txt").toList, ("input3.pdf").toList, ("notes.txt").toList] =
      next_sequence_number
        [("input1.txt").toList, ("input3.pdf").toList, ("notes.txt").toList] ∧
    next_sequence_number
        [("input1.txt").toList, ("input3.pdf").toList, ("notes.txt").toList] = 4 :=
  ⟨c6_get_next_input_number _ (by decide), by decide⟩
